import Mathlib

/-!
Verification development for the real-estate catalog layer of a Telegram bot
(source: database.py, class RealEstateDatabase).  The SQLite-backed store is
modelled as explicit lists of rows; each public method of the class is embedded
as a Lean function over that store.  SQL semantics are modelled directly:
JOIN as a nested-loop product, WHERE as a filter, SELECT DISTINCT as list
dedup, ORDER BY ... DESC as a stable merge sort, LIMIT/OFFSET as take/drop.
Uncaught Python exceptions (a TypeError escaping an `except sqlite3.Error`
handler) are modelled as `none` results.
-/

namespace RealEstate

/-! ### Character-level utilities for the translator (`natural_language_search`)

Python's `str.lower()` lowercases both ASCII and Cyrillic; the regexes use
`\s` and `\d` which we model by ASCII whitespace and ASCII digits. -/

/-- Lowercase a character the way Python's `str.lower()` does for the ASCII
and Cyrillic ranges used by the bot's keyword vocabulary. -/
def lowerChar (c : Char) : Char :=
  if 'A' ≤ c ∧ c ≤ 'Z' then Char.ofNat (c.toNat + 32)
  else if 'А' ≤ c ∧ c ≤ 'Я' then Char.ofNat (c.toNat + 32)
  else if c = 'Ё' then 'ё'
  else c

def lowerStr (s : List Char) : List Char := s.map lowerChar

/-- Whitespace class of the regex escape for spaces. -/
def isSpaceCh (c : Char) : Bool :=
  c = ' ' || c = '\t' || c = '\n' || c = '\x0d' || c = '\x0b' || c = '\x0c'

/-- Digit class of the regex escape for digits. -/
def isDigitCh (c : Char) : Bool := '0' ≤ c && c ≤ '9'

/-- Strip an expected literal from the front of a string; return the rest on
success.  Models matching a literal fragment of a regex at a position. -/
def stripPre : List Char → List Char → Option (List Char)
  | [], s => some s
  | _ :: _, [] => none
  | p :: ps, c :: cs => if c = p then stripPre ps cs else none

/-- Match one-or-more whitespace characters (greedy), returning the rest. -/
def dropSpaces1 (s : List Char) : Option (List Char) :=
  match s with
  | [] => none
  | c :: rest => if isSpaceCh c then some (rest.dropWhile isSpaceCh) else none

/-- Numeric value of a digit string, as Python's `int()` computes it. -/
def digitsVal (ds : List Char) : Nat :=
  ds.foldl (fun a c => a * 10 + (c.toNat - 48)) 0

/-- Match one-or-more digits (greedy capture group), returning its value. -/
def takeDigits1 (s : List Char) : Option Nat :=
  match s.takeWhile isDigitCh with
  | [] => none
  | d :: ds => some (digitsVal (d :: ds))

/-- Match the price-lower-bound pattern (the word "от", whitespace, digits)
anchored at the start of the given string. -/
def matchOtAt (s : List Char) : Option Nat :=
  (stripPre ("от".data) s).bind fun r => (dropSpaces1 r).bind takeDigits1

/-- Match the price-upper-bound pattern (the word "до", whitespace, digits)
anchored at the start of the given string. -/
def matchDoAt (s : List Char) : Option Nat :=
  (stripPre ("до".data) s).bind fun r => (dropSpaces1 r).bind takeDigits1

/-- Match the area-lower-bound pattern ("площадь", whitespace, then the
price-lower-bound pattern) anchored at the start of the string. -/
def matchPlOtAt (s : List Char) : Option Nat :=
  (stripPre ("площадь".data) s).bind fun r => (dropSpaces1 r).bind matchOtAt

/-- Match the area-upper-bound pattern ("площадь", whitespace, then the
price-upper-bound pattern) anchored at the start of the string. -/
def matchPlDoAt (s : List Char) : Option Nat :=
  (stripPre ("площадь".data) s).bind fun r => (dropSpaces1 r).bind matchDoAt

/-- Leftmost-match regex search: try the anchored matcher at every position
from the left, as `re.search` does. -/
def reSearch (m : List Char → Option Nat) : List Char → Option Nat
  | [] => m []
  | c :: rest =>
    match m (c :: rest) with
    | some n => some n
    | none => reSearch m rest

/-- Substring test, as Python's `in` operator on strings. -/
def isSub (needle : List Char) : List Char → Bool
  | [] => needle.isEmpty
  | c :: rest => (stripPre needle (c :: rest)).isSome || isSub needle rest

/-! ### Data model

Rows of the four tables used by database.py, with SQLite numeric affinity
modelled by Rat for money/area/coordinates and Nat for ids and counters. -/

structure Property where
  property_id : Nat
  title : String
  description : String
  type_id : Nat
  district_id : Nat
  address : String
  price : ℚ
  area : ℚ
  rooms : Nat
  floor : Nat
  total_floors : Nat
  year_built : Nat
  renovation_year : Nat
  has_balcony : Bool
  has_elevator : Bool
  has_parking : Bool
  image_url : String
  contact_phone : String
  contact_name : String
  latitude : ℚ
  longitude : ℚ
  is_available : Bool
  views_count : Nat
  date_added : Nat
deriving DecidableEq, Repr

structure Feature where
  feature_id : Nat
  name : String
deriving DecidableEq, Repr

structure PropertyType where
  type_id : Nat
  name : String
deriving DecidableEq, Repr

structure District where
  district_id : Nat
  name : String
  popularity : Nat
deriving DecidableEq, Repr

/-- The relational store: Properties, PropertyFeatures (pairs of property id
and feature id), Features, PropertyTypes and Districts tables. -/
structure Store where
  properties : List Property
  propertyFeatures : List (Nat × Nat)
  features : List Feature
  propertyTypes : List PropertyType
  districts : List District
deriving DecidableEq, Repr

/-- The filters dict accepted by search_properties: a missing key is `none`. -/
structure Filters where
  min_price : Option ℚ := none
  max_price : Option ℚ := none
  min_area : Option ℚ := none
  max_area : Option ℚ := none
  district_id : Option Nat := none
  type_id : Option Nat := none
  rooms : Option Nat := none
  has_balcony : Option Bool := none
  has_elevator : Option Bool := none
  has_parking : Option Bool := none
  features : Option (List Nat) := none
deriving DecidableEq, Repr

def emptyFilters : Filters := {}

/-! ### Search engine (`search_properties`) -/

/-- The feature id list of a filters dict, empty when the key is absent. -/
def featList (f : Filters) : List Nat :=
  match f.features with
  | some fs => fs
  | none => []

/-- Guard of the feature JOIN: the code tests `'features' in filters and
filters['features']`, so a present-but-empty list behaves like an absent key. -/
def featActive (f : Filters) : Bool := !(featList f).isEmpty

/-- Conjunction of the availability condition and every scalar WHERE condition
the code appends for a present filter key, in source order. -/
def scalarConds (f : Filters) (p : Property) : Bool :=
  p.is_available &&
  (match f.min_price with | some v => decide (v ≤ p.price) | none => true) &&
  (match f.max_price with | some v => decide (p.price ≤ v) | none => true) &&
  (match f.min_area with | some v => decide (v ≤ p.area) | none => true) &&
  (match f.max_area with | some v => decide (p.area ≤ v) | none => true) &&
  (match f.district_id with | some v => decide (p.district_id = v) | none => true) &&
  (match f.type_id with | some v => decide (p.type_id = v) | none => true) &&
  (match f.rooms with | some v => decide (p.rooms = v) | none => true) &&
  (match f.has_balcony with | some v => decide (p.has_balcony = v) | none => true) &&
  (match f.has_elevator with | some v => decide (p.has_elevator = v) | none => true) &&
  (match f.has_parking with | some v => decide (p.has_parking = v) | none => true)

/-- Nested-loop product of Properties with its matching PropertyFeatures rows:
the JOIN added when the feature filter is active. -/
def joinPF (s : Store) : List (Property × (Nat × Nat)) :=
  s.properties.flatMap fun p =>
    (s.propertyFeatures.filter fun pf => decide (pf.1 = p.property_id)).map
      fun pf => (p, pf)

/-- The OR group of per-feature conditions appended inside the parentheses. -/
def featCond (f : Filters) (pf : Nat × Nat) : Bool :=
  (featList f).any fun fid => decide (pf.2 = fid)

/-- Result rows of the SELECT DISTINCT, before ORDER BY/LIMIT/OFFSET: filtered
join (or filtered base table) projected to the property columns and deduped. -/
def searchRows (s : Store) (f : Filters) : List Property :=
  if featActive f then
    (((joinPF s).filter fun pr => scalarConds f pr.1 && featCond f pr.2).map
        Prod.fst).dedup
  else
    (s.properties.filter fun p => scalarConds f p).dedup

/-- Comparison of the ORDER BY clause: descending date_added.  SQLite leaves
the relative order of ties unspecified; a stable sort models one admissible
execution deterministically. -/
def dateDesc (a b : Property) : Prop := b.date_added ≤ a.date_added

instance : DecidableRel dateDesc :=
  fun a b => inferInstanceAs (Decidable (b.date_added ≤ a.date_added))

/-- The ordered, filtered, deduplicated result sequence the query paginates. -/
def searchOrdered (s : Store) (f : Filters) : List Property :=
  (searchRows s f).insertionSort dateDesc

/-! ### Enrichment of result rows -/

/-- A property dict as returned to callers: the row plus its attached feature
list, property type record and district record. -/
structure EnrichedProperty where
  prop : Property
  features : List Feature
  property_type : PropertyType
  district : District
deriving DecidableEq, Repr

/-- Feature rows attached to a property: the Features-major join of Features
with PropertyFeatures restricted to the given property id. -/
def propFeats (s : Store) (pid : Nat) : List Feature :=
  s.features.flatMap fun fe =>
    (s.propertyFeatures.filter fun pf =>
        decide (pf.2 = fe.feature_id) && decide (pf.1 = pid)).map
      fun _ => fe

/-- Attach features, type and district to one row.  The code calls
`dict(self.cursor.fetchone())` on the type and district lookups; a missing
referent makes that raise a TypeError which no handler catches, modelled by
`none`. -/
def enrich (s : Store) (p : Property) : Option EnrichedProperty :=
  (s.propertyTypes.find? (fun t => decide (t.type_id = p.type_id))).bind fun t =>
    (s.districts.find? (fun d => decide (d.district_id = p.district_id))).map
      fun d =>
        { prop := p, features := propFeats s p.property_id,
          property_type := t, district := d }

/-- Enrich each row in order, aborting (as the raised exception would) at the
first row whose type or district lookup fails. -/
def enrichAll (s : Store) : List Property → Option (List EnrichedProperty)
  | [] => some []
  | p :: ps =>
    (enrich s p).bind fun e => (enrichAll s ps).map fun es => e :: es

/-- Embedding of search_properties: filter, dedup, order, paginate, enrich.
A `none` result models the uncaught enrichment TypeError. -/
def search_properties (s : Store) (f : Filters) (lim off : Nat) :
    Option (List EnrichedProperty) :=
  enrichAll s (((searchOrdered s f).drop off).take lim)

/-! ### get_property_by_id -/

/-- Row image under the UPDATE that increments views_count for one id. -/
def bumpViews (pid : Nat) (q : Property) : Property :=
  if q.property_id = pid then { q with views_count := q.views_count + 1 } else q

/-- Embedding of get_property_by_id: first the committed UPDATE incrementing
the view counter, then the SELECT by id (None when absent), then enrichment.
Returns the post-call store together with the result. -/
def get_property_by_id (s : Store) (pid : Nat) :
    Store × Option EnrichedProperty :=
  let s2 := { s with properties := s.properties.map (bumpViews pid) }
  (s2, (s2.properties.find? (fun q => decide (q.property_id = pid))).bind
    (enrich s2))

/-! ### update_property and delete_property -/

/-- The property_data dict accepted by update_property: each updatable column
optionally present, plus the optional features list. -/
structure UpdateData where
  title : Option String := none
  description : Option String := none
  type_id : Option Nat := none
  district_id : Option Nat := none
  address : Option String := none
  price : Option ℚ := none
  area : Option ℚ := none
  rooms : Option Nat := none
  floor : Option Nat := none
  total_floors : Option Nat := none
  year_built : Option Nat := none
  renovation_year : Option Nat := none
  has_balcony : Option Bool := none
  has_elevator : Option Bool := none
  has_parking : Option Bool := none
  image_url : Option String := none
  contact_phone : Option String := none
  contact_name : Option String := none
  latitude : Option ℚ := none
  longitude : Option ℚ := none
  is_available : Option Bool := none
  features : Option (List Nat) := none
deriving DecidableEq, Repr

def emptyUpdate : UpdateData := {}

/-- Whether any SET fragment was collected: true when at least one of the 21
update_columns is present in the dict (the features key is not a column). -/
def updHasFields (u : UpdateData) : Bool :=
  u.title.isSome || u.description.isSome || u.type_id.isSome ||
  u.district_id.isSome || u.address.isSome || u.price.isSome ||
  u.area.isSome || u.rooms.isSome || u.floor.isSome ||
  u.total_floors.isSome || u.year_built.isSome || u.renovation_year.isSome ||
  u.has_balcony.isSome || u.has_elevator.isSome || u.has_parking.isSome ||
  u.image_url.isSome || u.contact_phone.isSome || u.contact_name.isSome ||
  u.latitude.isSome || u.longitude.isSome || u.is_available.isSome

/-- Apply every present column of the SET clause to one row. -/
def applyUpd (u : UpdateData) (q : Property) : Property :=
  { q with
    title := u.title.getD q.title,
    description := u.description.getD q.description,
    type_id := u.type_id.getD q.type_id,
    district_id := u.district_id.getD q.district_id,
    address := u.address.getD q.address,
    price := u.price.getD q.price,
    area := u.area.getD q.area,
    rooms := u.rooms.getD q.rooms,
    floor := u.floor.getD q.floor,
    total_floors := u.total_floors.getD q.total_floors,
    year_built := u.year_built.getD q.year_built,
    renovation_year := u.renovation_year.getD q.renovation_year,
    has_balcony := u.has_balcony.getD q.has_balcony,
    has_elevator := u.has_elevator.getD q.has_elevator,
    has_parking := u.has_parking.getD q.has_parking,
    image_url := u.image_url.getD q.image_url,
    contact_phone := u.contact_phone.getD q.contact_phone,
    contact_name := u.contact_name.getD q.contact_name,
    latitude := u.latitude.getD q.latitude,
    longitude := u.longitude.getD q.longitude,
    is_available := u.is_available.getD q.is_available }

/-- Embedding of update_property: with no SET fragments the call returns False
before issuing any statement; otherwise the UPDATE runs, and when the features
key is present the association rows for the id are replaced. -/
def update_property (s : Store) (pid : Nat) (u : UpdateData) : Store × Bool :=
  if !updHasFields u then (s, false)
  else
    let s2 := { s with properties := s.properties.map (fun q =>
      if q.property_id = pid then applyUpd u q else q) }
    match u.features with
    | none => (s2, true)
    | some fs =>
      let pfs := (s2.propertyFeatures.filter (fun pf => !decide (pf.1 = pid)))
        ++ fs.map (fun fid => (pid, fid))
      ({ s2 with propertyFeatures := pfs }, true)

/-- Embedding of delete_property: the soft delete clears is_available on the
matching row and reports success. -/
def delete_property (s : Store) (pid : Nat) : Store × Bool :=
  ({ s with properties := s.properties.map (fun q =>
      if q.property_id = pid then { q with is_available := false } else q) },
   true)

/-! ### get_statistics -/

/-- Python's round-half-to-even on a rational. -/
def roundHalfEven (q : ℚ) : ℤ :=
  let f := ⌊q⌋
  let r := q - (f : ℚ)
  if r < 1 / 2 then f
  else if 1 / 2 < r then f + 1
  else if f % 2 = 0 then f else f + 1

/-- Python's round(x, 2). -/
def round2 (q : ℚ) : ℚ := (roundHalfEven (q * 100) : ℚ) / 100

/-- Group the multiset of names of a joined result and count each group, in
first-occurrence order (SQLite leaves GROUP BY output order unspecified). -/
def groupCounts (names : List String) : List (String × Nat) :=
  names.dedup.map (fun n => (n, names.count n))

/-- Count comparison of the popular-features ORDER BY count DESC. -/
def cntDesc (a b : String × Nat) : Prop := b.2 ≤ a.2

instance : DecidableRel cntDesc :=
  fun a b => inferInstanceAs (Decidable (b.2 ≤ a.2))

/-- The statistics dict of get_statistics. -/
structure Stats where
  total_properties : Nat
  average_price : ℚ
  average_area : ℚ
  types : List (String × Nat)
  districts : List (String × Nat)
  popular_features : List (String × Nat)
deriving DecidableEq, Repr

/-- Embedding of get_statistics.  With zero available rows the SQL AVG
aggregates are NULL and `round(None, 2)` raises a TypeError that the
`except sqlite3.Error` handler does not catch: the call produces no dict,
modelled by `none`. -/
def get_statistics (s : Store) : Option Stats :=
  let avail := s.properties.filter (fun p => p.is_available)
  if avail.length = 0 then none
  else
    let typeNames := avail.flatMap fun p =>
      (s.propertyTypes.filter (fun t => decide (t.type_id = p.type_id))).map
        (fun t => t.name)
    let distNames := avail.flatMap fun p =>
      (s.districts.filter (fun d => decide (d.district_id = p.district_id))).map
        (fun d => d.name)
    let featNames := s.propertyFeatures.flatMap fun pf =>
      (s.features.filter (fun fe => decide (fe.feature_id = pf.2))).flatMap
        fun fe =>
          (avail.filter (fun p => decide (p.property_id = pf.1))).map
            (fun _ => fe.name)
    some { total_properties := avail.length,
           average_price :=
             round2 (((avail.map (fun p => p.price)).sum) / (avail.length : ℚ)),
           average_area :=
             round2 (((avail.map (fun p => p.area)).sum) / (avail.length : ℚ)),
           types := groupCounts typeNames,
           districts := groupCounts distNames,
           popular_features :=
             (((groupCounts featNames).insertionSort cntDesc).take 5) }

/-! ### Query translator (the filter construction of natural_language_search) -/

/-- Rooms patterns tried for i from 1 to 9: the hyphenated and the spaced
surface form, on the lowercased text. -/
def roomsOf (lower : List Char) : Option Nat :=
  (List.range' 1 9).find? fun i =>
    isSub (Char.ofNat (48 + i) :: "-комнатн".data) lower ||
    isSub (Char.ofNat (48 + i) :: " комнат".data) lower

/-- Embedding of the filter-dict construction of natural_language_search:
keyword checks on the lowercased text, table-driven district and feature
matching, the four numeric-range regex searches on the raw text, and the
amenity keyword checks. -/
def nlsFilters (s : Store) (txt : List Char) : Filters :=
  let lower := lowerStr txt
  { type_id :=
      if isSub ("квартира".data) lower then some 1
      else if isSub ("дом".data) lower then some 2
      else if isSub ("студия".data) lower then some 3
      else none,
    district_id :=
      (s.districts.find? (fun d => isSub (lowerStr d.name.data) lower)).map
        (fun d => d.district_id),
    rooms := roomsOf lower,
    features :=
      match (s.features.filter
          (fun fe => isSub (lowerStr fe.name.data) lower)).map
          (fun fe => fe.feature_id) with
      | [] => none
      | fid :: fids => some (fid :: fids),
    min_price := (reSearch matchOtAt txt).map (fun n => (n : ℚ)),
    max_price := (reSearch matchDoAt txt).map (fun n => (n : ℚ)),
    min_area := (reSearch matchPlOtAt txt).map (fun n => (n : ℚ)),
    max_area := (reSearch matchPlDoAt txt).map (fun n => (n : ℚ)),
    has_balcony := if isSub ("балкон".data) lower then some true else none,
    has_elevator := if isSub ("лифт".data) lower then some true else none,
    has_parking :=
      if isSub ("парковк".data) lower || isSub ("паркинг".data) lower then
        some true
      else none }

/-- Embedding of natural_language_search: translate, then search with the
default limit 10 and offset 0. -/
def natural_language_search (s : Store) (txt : List Char) :
    Option (List EnrichedProperty) :=
  search_properties s (nlsFilters s txt) 10 0

/-! ### Concrete sample data used to exercise the definitions -/

def prop1 : Property :=
  { property_id := 1, title := "One", description := "d1", type_id := 1,
    district_id := 1, address := "a1", price := 100, area := 50, rooms := 2,
    floor := 1, total_floors := 5, year_built := 2000, renovation_year := 2010,
    has_balcony := true, has_elevator := false, has_parking := false,
    image_url := "", contact_phone := "", contact_name := "",
    latitude := 0, longitude := 0, is_available := true, views_count := 3,
    date_added := 10 }

def prop2 : Property :=
  { prop1 with
    property_id := 2, title := "Two", price := 200, area := 80,
    date_added := 20, views_count := 0 }

def propOff : Property :=
  { prop1 with property_id := 3, title := "Off", is_available := false }

def type1 : PropertyType := { type_id := 1, name := "квартира" }

def dist1 : District := { district_id := 1, name := "центр", popularity := 5 }

def feat1 : Feature := { feature_id := 1, name := "балкон" }

def feat2 : Feature := { feature_id := 2, name := "сад" }

/-- A small store with two available listings: listing 1 has feature 1 only,
listing 2 has features 1 and 2. -/
def sampleStore : Store :=
  { properties := [prop1, prop2],
    propertyFeatures := [(1, 1), (2, 1), (2, 2)],
    features := [feat1, feat2],
    propertyTypes := [type1],
    districts := [dist1] }

/-- A store whose only listing is unavailable: zero available listings. -/
def zeroAvailStore : Store :=
  { properties := [propOff], propertyFeatures := [], features := [],
    propertyTypes := [type1], districts := [dist1] }

/-- The store with no rows at all. -/
def emptyStore : Store :=
  { properties := [], propertyFeatures := [], features := [],
    propertyTypes := [], districts := [] }

/-! ### Helper lemmas -/

theorem enrichAll_append (s : Store) (l₁ : List Property) :
    ∀ (l₂ : List Property) (r₁ r₂ : List EnrichedProperty),
      enrichAll s l₁ = some r₁ → enrichAll s l₂ = some r₂ →
      enrichAll s (l₁ ++ l₂) = some (r₁ ++ r₂) := by
  induction l₁ with
  | nil =>
    intro l₂ r₁ r₂ h₁ h₂
    simp only [enrichAll] at h₁
    cases h₁
    simpa using h₂
  | cons p ps ih =>
    intro l₂ r₁ r₂ h₁ h₂
    rw [List.cons_append]
    simp only [enrichAll, Option.bind_eq_some, Option.map_eq_some'] at h₁ ⊢
    obtain ⟨e, he, es, hes, hr⟩ := h₁
    exact ⟨e, he, es ++ r₂, ih l₂ es r₂ hes h₂, by rw [← hr]; simp⟩

theorem stripPre_suffix : ∀ (p s r : List Char), stripPre p s = some r → r <:+ s
  | [], s, r, h => by
    simp only [stripPre] at h
    cases h
    exact List.suffix_rfl
  | _ :: _, [], r, h => by simp [stripPre] at h
  | c :: cs, a :: as, r, h => by
    by_cases hc : a = c
    · rw [stripPre, if_pos hc] at h
      exact (stripPre_suffix cs as r h).trans (List.suffix_cons a as)
    · rw [stripPre, if_neg hc] at h
      cases h

theorem dropSpaces1_suffix (s r : List Char) (h : dropSpaces1 s = some r) :
    r <:+ s := by
  match s with
  | [] => simp [dropSpaces1] at h
  | c :: rest =>
    by_cases hc : isSpaceCh c = true
    · rw [dropSpaces1, if_pos hc] at h
      cases h
      exact (List.dropWhile_suffix isSpaceCh).trans (List.suffix_cons c rest)
    · rw [dropSpaces1, if_neg hc] at h
      cases h

/-- Whenever the area-lower-bound pattern matches at the start of a string,
the price-lower-bound pattern matches at a suffix, with the same number. -/
theorem matchPlOtAt_tail (s : List Char) (n : Nat) (h : matchPlOtAt s = some n) :
    ∃ r, r <:+ s ∧ matchOtAt r = some n := by
  unfold matchPlOtAt at h
  simp only [Option.bind_eq_some] at h
  obtain ⟨r1, hp, r2, hd2, hm⟩ := h
  exact ⟨r2, (dropSpaces1_suffix r1 r2 hd2).trans
    (stripPre_suffix ("площадь".data) s r1 hp), hm⟩

/-- Same as matchPlOtAt_tail for the upper-bound patterns. -/
theorem matchPlDoAt_tail (s : List Char) (n : Nat) (h : matchPlDoAt s = some n) :
    ∃ r, r <:+ s ∧ matchDoAt r = some n := by
  unfold matchPlDoAt at h
  simp only [Option.bind_eq_some] at h
  obtain ⟨r1, hp, r2, hd2, hm⟩ := h
  exact ⟨r2, (dropSpaces1_suffix r1 r2 hd2).trans
    (stripPre_suffix ("площадь".data) s r1 hp), hm⟩

/-- A successful regex search yields an anchored match at some suffix. -/
theorem reSearch_some (m : List Char → Option Nat) :
    ∀ (s : List Char) (n : Nat), reSearch m s = some n →
      ∃ r, r <:+ s ∧ m r = some n
  | [], n, h => ⟨[], List.suffix_rfl, by simpa [reSearch] using h⟩
  | c :: rest, n, h => by
    unfold reSearch at h
    cases hmc : m (c :: rest) with
    | some k =>
      rw [hmc] at h
      cases h
      exact ⟨c :: rest, List.suffix_rfl, hmc⟩
    | none =>
      rw [hmc] at h
      obtain ⟨r, hr, hm⟩ := reSearch_some m rest n h
      exact ⟨r, hr.trans (List.suffix_cons c rest), hm⟩

/-- An anchored match at any suffix makes the regex search succeed. -/
theorem reSearch_isSome_of_suffix (m : List Char → Option Nat) :
    ∀ (s r : List Char) (n : Nat), r <:+ s → m r = some n →
      (reSearch m s).isSome = true
  | [], r, n, hsuf, hm => by
    have hr : r = [] := List.suffix_nil.mp hsuf
    subst hr
    simp [reSearch, hm]
  | c :: rest, r, n, hsuf, hm => by
    unfold reSearch
    cases hmc : m (c :: rest) with
    | some k => simp
    | none =>
      rcases List.suffix_cons_iff.mp hsuf with heq | hsuf2
      · subst heq
        rw [hmc] at hm
        cases hm
      · exact reSearch_isSome_of_suffix m rest r n hsuf2 hm

/-- A row of a search result passed the availability-and-scalar conditions. -/
theorem scalarConds_avail (f : Filters) (q : Property)
    (h : scalarConds f q = true) : q.is_available = true := by
  simp only [scalarConds, Bool.and_eq_true] at h
  exact h.1.1.1.1.1.1.1.1.1.1

/-- Every row of the pre-pagination result set comes from the Properties
table and satisfies the availability-and-scalar conditions. -/
theorem mem_searchRows {s : Store} {f : Filters} {q : Property}
    (h : q ∈ searchRows s f) : q ∈ s.properties ∧ scalarConds f q = true := by
  unfold searchRows at h
  by_cases hact : featActive f = true
  · rw [if_pos hact] at h
    rw [List.mem_dedup] at h
    obtain ⟨pr, hpr, hq⟩ := List.mem_map.mp h
    obtain ⟨hprj, hcond⟩ := List.mem_filter.mp hpr
    rw [Bool.and_eq_true] at hcond
    unfold joinPF at hprj
    obtain ⟨p0, hp0, hpr2⟩ := List.mem_flatMap.mp hprj
    obtain ⟨pf, _, heq⟩ := List.mem_map.mp hpr2
    subst heq
    exact ⟨hq ▸ hp0, hq ▸ hcond.1⟩
  · rw [if_neg hact] at h
    rw [List.mem_dedup, List.mem_filter] at h
    exact h

/-- find? on a list split around the first row satisfying the predicate. -/
theorem find_mid {α : Type} (pred : α → Bool) (l₁ l₂ : List α) (x : α)
    (h : ∀ q ∈ l₁, pred q = false) (hx : pred x = true) :
    (l₁ ++ x :: l₂).find? pred = some x := by
  induction l₁ with
  | nil =>
    rw [List.nil_append]
    exact List.find?_cons_of_pos _ hx
  | cons a as ih =>
    rw [List.cons_append, List.find?_cons_of_neg]
    · exact ih (fun q hq => h q (List.mem_cons_of_mem a hq))
    · simp [h a (List.mem_cons_self a as)]

/-! ### Claim theorems -/

/-- C1: the claim says get_statistics on a store with zero available listings
returns total 0 with sentinel averages rather than raising.  In the code the
AVG aggregates are NULL there and round(None, 2) raises a TypeError that the
sqlite3.Error handler does not catch, so no dict is returned at all: evaluated
at a store whose single listing is unavailable, the embedded get_statistics
yields no result. -/
theorem get_statistics_zero_available_crashes :
    get_statistics zeroAvailStore = none := by rfl

/-- C5: update_property called with a field set containing none of the 21
updatable columns returns False before issuing any store operation: the
failure signal is returned and the store is unchanged. -/
theorem update_property_no_fields_rejected (s : Store) (pid : Nat)
    (u : UpdateData) (h : updHasFields u = false) :
    update_property s pid u = (s, false) := by
  unfold update_property
  rw [h]
  simp

/-- Witness for C5: on the sample store, the all-absent field set is rejected
and the store is returned unchanged. -/
theorem update_property_no_fields_rejected_witness :
    update_property sampleStore 1 emptyUpdate = (sampleStore, false) :=
  update_property_no_fields_rejected sampleStore 1 emptyUpdate (by decide)

/-- C7: pagination coherence of search_properties.  If page one is the result
with limit 5 offset 0 and page two the result with limit 5 offset 5, then the
call with limit 10 offset 0 returns exactly their concatenation, for every
store and every fixed filter set. -/
theorem search_properties_pagination (s : Store) (f : Filters)
    (r₁ r₂ : List EnrichedProperty)
    (h₁ : search_properties s f 5 0 = some r₁)
    (h₂ : search_properties s f 5 5 = some r₂) :
    search_properties s f 10 0 = some (r₁ ++ r₂) := by
  unfold search_properties at h₁ h₂ ⊢
  rw [List.drop_zero] at h₁ ⊢
  rw [show (10 : Nat) = 5 + 5 from rfl, List.take_add]
  exact enrichAll_append s _ _ _ _ h₁ h₂

/-- Witness for C7: concrete pagination over the two-listing sample store. -/
theorem search_properties_pagination_witness :
    search_properties sampleStore emptyFilters 10 0 =
      some (((search_properties sampleStore emptyFilters 5 0).getD []) ++
            ((search_properties sampleStore emptyFilters 5 5).getD [])) :=
  search_properties_pagination sampleStore emptyFilters _ _ (by rfl) (by rfl)

/-- C9: a filters dict whose features key is present but holds the empty list
behaves exactly like the dict with the key absent, for every store, limit and
offset: the empty set imposes no feature constraint. -/
theorem search_features_empty_like_absent (f : Filters)
    (hf : f.features = some []) (s : Store) (lim off : Nat) :
    search_properties s f lim off =
      search_properties s { f with features := none } lim off := by
  have hrows : searchRows s f = searchRows s { f with features := none } := by
    unfold searchRows
    have h1 : featActive f = false := by simp [featActive, featList, hf]
    have h2 : featActive { f with features := none } = false := by
      simp [featActive, featList]
    rw [h1, h2]
    rfl
  unfold search_properties searchOrdered
  rw [hrows]

/-- Witness for C9: with the sample store, searching with an explicit empty
feature list equals searching with the key absent. -/
theorem search_features_empty_like_absent_witness :
    search_properties sampleStore { features := some [] } 10 0 =
      search_properties sampleStore
        { { features := some [] : Filters } with features := none } 10 0 :=
  search_features_empty_like_absent { features := some [] } (by rfl)
    sampleStore 10 0

/-- C10: get_property_by_id on an id that matches no row returns None and
leaves the store entirely unchanged, including every view counter: the UPDATE
matches no row and the SELECT finds none. -/
theorem get_property_by_id_not_found (s : Store) (pid : Nat)
    (h : ∀ q ∈ s.properties, q.property_id ≠ pid) :
    get_property_by_id s pid = (s, none) := by
  have hmap : s.properties.map (bumpViews pid) = s.properties := by
    have hc : s.properties.map (bumpViews pid) = s.properties.map id :=
      List.map_congr_left (fun q hq => by simp [bumpViews, h q hq])
    simpa using hc
  have hfind :
      s.properties.find? (fun q => decide (q.property_id = pid)) = none :=
    List.find?_eq_none.mpr (fun q hq => by simp [h q hq])
  unfold get_property_by_id
  simp only [hmap, hfind]
  rfl

/-- Witness for C10: fetching absent id 9 from the sample store returns None
and the unchanged store. -/
theorem get_property_by_id_not_found_witness :
    get_property_by_id sampleStore 9 = (sampleStore, none) :=
  get_property_by_id_not_found sampleStore 9 (by decide)

/-- C2 counterexample: the text "площадь от 50", whose only numeric fragment
is the area-lower-bound phrase, translates to a filter dict whose min_area is
50 as claimed but whose min_price is ALSO set to 50, because the regex for
"от {int}" also matches inside the area phrase; the claim that min_price is
left unset is false. -/
theorem nls_area_phrase_sets_min_price :
    (nlsFilters emptyStore ("площадь от 50".data)).min_area = some 50 ∧
    (nlsFilters emptyStore ("площадь от 50".data)).min_price = some 50 := by
  constructor <;> decide

/-- C2 (amended): whenever the area-lower-bound pattern "площадь от {n}"
matches the text, min_area is set to n and min_price is also set (the price
pattern "от {int}" necessarily matches too, inside the area phrase or
earlier); symmetrically for "площадь до {n}", max_area and max_price.  The
four range patterns therefore do NOT each populate only their own field. -/
theorem nls_area_patterns_set_price_too (s : Store) (txt1 txt2 : List Char)
    (n1 n2 : Nat)
    (h1 : reSearch matchPlOtAt txt1 = some n1)
    (h2 : reSearch matchPlDoAt txt2 = some n2) :
    ((nlsFilters s txt1).min_area = some (n1 : ℚ) ∧
      ∃ m : ℚ, (nlsFilters s txt1).min_price = some m) ∧
    ((nlsFilters s txt2).max_area = some (n2 : ℚ) ∧
      ∃ m : ℚ, (nlsFilters s txt2).max_price = some m) := by
  have hmin : (reSearch matchOtAt txt1).isSome = true := by
    obtain ⟨r, hr, hm⟩ := reSearch_some matchPlOtAt txt1 n1 h1
    obtain ⟨r2, hr2, hm2⟩ := matchPlOtAt_tail r n1 hm
    exact reSearch_isSome_of_suffix matchOtAt txt1 r2 n1 (hr2.trans hr) hm2
  have hmax : (reSearch matchDoAt txt2).isSome = true := by
    obtain ⟨r, hr, hm⟩ := reSearch_some matchPlDoAt txt2 n2 h2
    obtain ⟨r2, hr2, hm2⟩ := matchPlDoAt_tail r n2 hm
    exact reSearch_isSome_of_suffix matchDoAt txt2 r2 n2 (hr2.trans hr) hm2
  obtain ⟨m1, hm1⟩ := Option.isSome_iff_exists.mp hmin
  obtain ⟨m2, hm2⟩ := Option.isSome_iff_exists.mp hmax
  refine ⟨⟨?_, ⟨(m1 : ℚ), ?_⟩⟩, ⟨?_, ⟨(m2 : ℚ), ?_⟩⟩⟩ <;>
    simp [nlsFilters, h1, h2, hm1, hm2]

/-- Witness for the amended C2 theorem at the concrete texts "площадь от 50"
and "площадь до 70". -/
theorem nls_area_patterns_set_price_too_witness :
    ((nlsFilters emptyStore ("площадь от 50".data)).min_area =
        some ((50 : Nat) : ℚ) ∧
      ∃ m : ℚ, (nlsFilters emptyStore ("площадь от 50".data)).min_price =
        some m) ∧
    ((nlsFilters emptyStore ("площадь до 70".data)).max_area =
        some ((70 : Nat) : ℚ) ∧
      ∃ m : ℚ, (nlsFilters emptyStore ("площадь до 70".data)).max_price =
        some m) :=
  nls_area_patterns_set_price_too emptyStore ("площадь от 50".data)
    ("площадь до 70".data) 50 70 (by decide) (by decide)

/-- C6: with no filter fields set, search applies no condition other than
availability: for every limit, the result is obtained from the available
listings alone, ordered by descending creation time, cut to the limit, and
enriched.  The id-uniqueness hypothesis is the primary-key invariant under
which the DISTINCT projection is the identity. -/
theorem search_empty_filters_top_recent (s : Store) (lim : Nat)
    (hnd : (s.properties.map (fun p => p.property_id)).Nodup) :
    search_properties s emptyFilters lim 0 =
      enrichAll s
        (((s.properties.filter (fun p => p.is_available)).insertionSort
            dateDesc).take lim) := by
  have hrows : searchRows s emptyFilters =
      s.properties.filter (fun p => p.is_available) := by
    unfold searchRows
    rw [if_neg (by decide : ¬(featActive emptyFilters = true))]
    rw [List.filter_congr
      (fun p _ => by simp [scalarConds, emptyFilters] :
        ∀ p ∈ s.properties,
          scalarConds emptyFilters p = (fun q => q.is_available) p)]
    exact List.dedup_eq_self.mpr
      (((List.Nodup.of_map _ hnd).filter (fun q => q.is_available)))
  unfold search_properties searchOrdered
  rw [hrows, List.drop_zero]

/-- Witness for C6 on the sample store with limit 10. -/
theorem search_empty_filters_top_recent_witness :
    search_properties sampleStore emptyFilters 10 0 =
      enrichAll sampleStore
        (((sampleStore.properties.filter (fun p => p.is_available)).insertionSort
            dateDesc).take 10) :=
  search_empty_filters_top_recent sampleStore 10 (by decide)

/-- C3: under a filter whose feature set is exactly the pair of A and B, an
available listing that passes the scalar conditions and carries feature A,
feature B, or both, occurs exactly once in the ordered result sequence the
query paginates — the DISTINCT projection collapses the one-row-per-matching-
feature effect of the join. -/
theorem feature_or_matches_once (s : Store) (f : Filters) (A B : Nat)
    (p : Property)
    (hf : f.features = some [A, B])
    (hmem : p ∈ s.properties)
    (hcond : scalarConds f p = true)
    (hAB : (p.property_id, A) ∈ s.propertyFeatures ∨
      (p.property_id, B) ∈ s.propertyFeatures) :
    (searchOrdered s f).count p = 1 := by
  rw [searchOrdered,
    (List.perm_insertionSort dateDesc (searchRows s f)).count_eq]
  have hact : featActive f = true := by simp [featActive, featList, hf]
  rw [searchRows, if_pos hact]
  refine List.count_eq_one_of_mem (List.nodup_dedup _) (List.mem_dedup.mpr ?_)
  obtain ⟨fid, hfidAB, hpf⟩ : ∃ fid, (fid = A ∨ fid = B) ∧
      (p.property_id, fid) ∈ s.propertyFeatures := by
    rcases hAB with h | h
    exacts [⟨A, Or.inl rfl, h⟩, ⟨B, Or.inr rfl, h⟩]
  apply List.mem_map.mpr
  refine ⟨(p, (p.property_id, fid)), List.mem_filter.mpr ⟨?_, ?_⟩, rfl⟩
  · unfold joinPF
    exact List.mem_flatMap.mpr ⟨p, hmem, List.mem_map.mpr
      ⟨(p.property_id, fid), List.mem_filter.mpr ⟨hpf, by simp⟩, rfl⟩⟩
  · rw [Bool.and_eq_true]
    refine ⟨hcond, ?_⟩
    simp only [featCond, featList, hf, List.any_eq_true]
    rcases hfidAB with h | h <;> subst h <;> simp

/-- Witness for C3: listing 2 of the sample store has BOTH features 1 and 2,
and still occurs exactly once under the feature filter with that pair. -/
theorem feature_or_matches_once_witness :
    (searchOrdered sampleStore { features := some [1, 2] }).count prop2 = 1 :=
  feature_or_matches_once sampleStore { features := some [1, 2] } 1 2 prop2
    rfl (by decide) (by decide) (Or.inl (by decide))

/-- C8: for an existing listing (exhibited by splitting the table around it,
with every other row carrying a different id, the primary-key invariant), a
call to get_property_by_id increments exactly that listing's view counter by
one and leaves every other row and every other table of the store unchanged:
the post-call store is the same store with only that row replaced. -/
theorem get_property_by_id_bumps_one_view (s : Store) (p : Property)
    (l₁ l₂ : List Property)
    (hsplit : s.properties = l₁ ++ p :: l₂)
    (h₁ : ∀ q ∈ l₁, q.property_id ≠ p.property_id)
    (h₂ : ∀ q ∈ l₂, q.property_id ≠ p.property_id) :
    (get_property_by_id s p.property_id).1 =
      { s with properties :=
          l₁ ++ { p with views_count := p.views_count + 1 } :: l₂ } := by
  have hmap : s.properties.map (bumpViews p.property_id) =
      l₁ ++ { p with views_count := p.views_count + 1 } :: l₂ := by
    rw [hsplit, List.map_append, List.map_cons]
    have hc₁ : l₁.map (bumpViews p.property_id) = l₁.map id :=
      List.map_congr_left (fun q hq => by simp [bumpViews, h₁ q hq])
    have hc₂ : l₂.map (bumpViews p.property_id) = l₂.map id :=
      List.map_congr_left (fun q hq => by simp [bumpViews, h₂ q hq])
    rw [hc₁, hc₂, List.map_id, List.map_id]
    simp [bumpViews]
  have hfst : (get_property_by_id s p.property_id).1 =
      { s with properties := s.properties.map (bumpViews p.property_id) } := rfl
  rw [hfst, hmap]

/-- Witness for C8: fetching listing 1 of the sample store increments its view
counter from 3 to 4 in place and changes nothing else. -/
theorem get_property_by_id_bumps_one_view_witness :
    (get_property_by_id sampleStore prop1.property_id).1 =
      { sampleStore with properties :=
          [] ++ { prop1 with views_count := prop1.views_count + 1 } ::
            [prop2] } :=
  get_property_by_id_bumps_one_view sampleStore prop1 [] [prop2] rfl
    (by decide) (by decide)

/-- C4: after the soft delete of an existing listing (the table split around
it, other rows carrying different ids, and its type and district resolving),
the listing appears in no search result for any filter and is excluded from
every availability-based statistics count, yet its row is still in the table
with availability cleared, its feature associations are untouched, and a
direct id lookup still returns the full record — with availability false, the
original feature associations, and the view counter preserved by the deletion
(then incremented once by the fetch itself, as every fetch does). -/
theorem soft_delete_audit (s : Store) (p : Property) (pid : Nat)
    (l₁ l₂ : List Property) (t : PropertyType) (d : District)
    (hsplit : s.properties = l₁ ++ p :: l₂)
    (hpid : p.property_id = pid)
    (h₁ : ∀ q ∈ l₁, q.property_id ≠ pid)
    (h₂ : ∀ q ∈ l₂, q.property_id ≠ pid)
    (ht : s.propertyTypes.find? (fun ty => decide (ty.type_id = p.type_id)) =
      some t)
    (hd : s.districts.find? (fun di => decide (di.district_id = p.district_id))
      = some d) :
    (∀ f : Filters, ∀ q ∈ searchOrdered (delete_property s pid).1 f,
      q.property_id ≠ pid) ∧
    (∀ q ∈ (delete_property s pid).1.properties, q.is_available = true →
      q.property_id ≠ pid) ∧
    ({ p with is_available := false } ∈ (delete_property s pid).1.properties) ∧
    ((delete_property s pid).1.propertyFeatures = s.propertyFeatures) ∧
    ((get_property_by_id (delete_property s pid).1 pid).2 =
      some { prop := { p with is_available := false, views_count := p.views_count + 1 },
             features := propFeats s pid, property_type := t,
             district := d }) := by
  have hdelprops : (delete_property s pid).1.properties =
      l₁ ++ { p with is_available := false } :: l₂ := by
    show s.properties.map (fun q =>
      if q.property_id = pid then { q with is_available := false } else q) = _
    rw [hsplit, List.map_append, List.map_cons]
    have hc₁ : l₁.map (fun q =>
        if q.property_id = pid then { q with is_available := false } else q) =
        l₁.map id :=
      List.map_congr_left (fun q hq => by simp [h₁ q hq])
    have hc₂ : l₂.map (fun q =>
        if q.property_id = pid then { q with is_available := false } else q) =
        l₂.map id :=
      List.map_congr_left (fun q hq => by simp [h₂ q hq])
    rw [hc₁, hc₂, List.map_id, List.map_id]
    simp [hpid]
  have havail : ∀ q ∈ (delete_property s pid).1.properties,
      q.is_available = true → q.property_id ≠ pid := by
    intro q hq hav
    rw [hdelprops] at hq
    rcases List.mem_append.mp hq with hm | hm
    · exact h₁ q hm
    · rcases List.mem_cons.mp hm with hm2 | hm2
      · rw [hm2] at hav
        simp at hav
      · exact h₂ q hm2
  refine ⟨?_, havail, ?_, rfl, ?_⟩
  · intro f q hq
    rw [searchOrdered, List.mem_insertionSort] at hq
    obtain ⟨hmemq, hcond⟩ := mem_searchRows hq
    exact havail q hmemq (scalarConds_avail _ _ hcond)
  · rw [hdelprops]
    simp
  · have hbump : (delete_property s pid).1.properties.map (bumpViews pid) =
        l₁ ++ { p with is_available := false, views_count := p.views_count + 1 } :: l₂ := by
      rw [hdelprops, List.map_append, List.map_cons]
      have hc₁ : l₁.map (bumpViews pid) = l₁.map id :=
        List.map_congr_left (fun q hq => by simp [bumpViews, h₁ q hq])
      have hc₂ : l₂.map (bumpViews pid) = l₂.map id :=
        List.map_congr_left (fun q hq => by simp [bumpViews, h₂ q hq])
      rw [hc₁, hc₂, List.map_id, List.map_id]
      simp [bumpViews, hpid]
    have hfind : ((delete_property s pid).1.properties.map
          (bumpViews pid)).find? (fun q => decide (q.property_id = pid)) =
        some { p with is_available := false, views_count := p.views_count + 1 } := by
      rw [hbump]
      exact find_mid _ l₁ l₂ _ (fun q hq => by simp [h₁ q hq])
        (by simp [hpid])
    show (((delete_property s pid).1.properties.map (bumpViews pid)).find?
        (fun q => decide (q.property_id = pid))).bind
        (enrich { (delete_property s pid).1 with
          properties :=
            (delete_property s pid).1.properties.map (bumpViews pid) }) = _
    rw [hfind, Option.some_bind]
    show enrich s { p with is_available := false, views_count := p.views_count + 1 } = _
    unfold enrich
    simp only []
    rw [show ({ p with is_available := false, views_count := p.views_count + 1 } : Property).type_id = p.type_id from rfl] at *
    rw [ht]
    rw [Option.some_bind]
    rw [hd]
    rw [Option.map_some']
    rw [show ({ p with is_available := false, views_count := p.views_count + 1 } : Property).property_id = pid from hpid]

/-- Witness for C4: soft-deleting listing 1 of the sample store. -/
theorem soft_delete_audit_witness :
    (∀ f : Filters, ∀ q ∈ searchOrdered (delete_property sampleStore 1).1 f,
      q.property_id ≠ 1) ∧
    (∀ q ∈ (delete_property sampleStore 1).1.properties,
      q.is_available = true → q.property_id ≠ 1) ∧
    ({ prop1 with is_available := false } ∈
      (delete_property sampleStore 1).1.properties) ∧
    ((delete_property sampleStore 1).1.propertyFeatures =
      sampleStore.propertyFeatures) ∧
    ((get_property_by_id (delete_property sampleStore 1).1 1).2 =
      some { prop := { prop1 with is_available := false, views_count := prop1.views_count + 1 },
             features := propFeats sampleStore 1, property_type := type1,
             district := dist1 }) :=
  soft_delete_audit sampleStore prop1 1 [] [prop2] type1 dist1 rfl rfl
    (by decide) (by decide) (by decide) (by decide)

end RealEstate
